import Mathlib

/- Verification of the validation and merge engine of the Africa Youth Transfer
Tracker sweep runner (`scripts/sweep.mjs`).

The script's pure logic is embedded shallowly:
 * the JSON data shapes of `players.json`, `intel.json` and the sweep delta
   become Lean structures;
 * the validators imported from `scripts/validate.mjs` are not part of the
   sources, so the orchestration (`runSweep`, `applyDelta`, `withRetry`,
   `main`) is parameterised over them, except for `validateEscalation` /
   `validateTierChange` which are modelled from the spec where noted;
 * file-system effects of `main` are recorded as a trace of symbolic events.
-/

set_option autoImplicit false

namespace Sweep

-- ── Data model ────────────────────────────────────────────────────────────

/-- A transfer rumour record, as stored per player in `players.json` and as
carried by the `rumor` field of a candidate delta item in `sweep.mjs`. -/
structure Rumour where
  date : String
  club : String
  detail : String
  source : String
  tier : Int
  status : String
  recent : Bool
deriving DecidableEq, Repr

/-- A roster player from `players.json`.  Only the fields that the embedded
code paths of `sweep.mjs` read are modelled (`id`, `name`, `status`,
`sweepTier`, `rumors`); the purely descriptive fields (country, position,
birth year, ...) are never inspected by the validation/merge orchestration. -/
structure Player where
  id : Int
  name : String
  status : String
  sweepTier : String
  rumors : List Rumour
deriving DecidableEq, Repr

/-- Run metadata stored in `players.json` (`meta.lastSweep`,
`meta.sweepNumber`). -/
structure RunMeta where
  lastSweep : String
  sweepNumber : Int
deriving DecidableEq, Repr

/-- The whole `players.json` store: run metadata plus the roster. -/
structure PlayersData where
  meta : RunMeta
  players : List Player
deriving DecidableEq, Repr

/-- One player's entry in `intel.json`: a JS object, modelled as an ordered
association list of field name / value pairs (values are opaque payloads). -/
abbrev IntelEntry := List (String × String)

/-- The whole `intel.json` store: a JS object keyed by `String(playerId)`,
modelled as an ordered association list. -/
abbrev IntelData := List (String × IntelEntry)

/-- A candidate delta item from the parsed Phase 2 JSON (`newIntel` array).
`playerName` is `Option` because the upstream JSON may omit it (the script
reads `item.playerName || "Unknown"`). -/
structure CandidateItem where
  playerId : Int
  playerName : Option String
  rumor : Option Rumour
  intelUpdates : Option IntelEntry
  reasoning : String
deriving DecidableEq, Repr

/-- An escalation record from the delta (`escalations` array). -/
structure Escalation where
  playerId : Int
  playerName : String
  field : String
  oldValue : String
  newValue : String
  source : String
deriving DecidableEq, Repr

/-- A sweep-tier change record from the delta (`tierChanges` array). -/
structure TierChange where
  playerId : Int
  playerName : String
  oldTier : String
  newTier : String
  reason : String
deriving DecidableEq, Repr

/-- An entry of the delta's `needsReview` list. -/
structure NeedsReviewEntry where
  playerId : Int
  playerName : String
  detail : String
  reason : String
deriving DecidableEq, Repr

/-- The parsed Phase 2 delta.  Arrays that may be absent in the JSON are
modelled as lists (absent ≡ empty, matching the script's `(x || [])` and
`if (!delta.needsReview) delta.needsReview = []` accesses); `sweepNumber`
stays an `Option` because `main` reads it through JS truthiness. -/
structure Delta where
  sweepNumber : Option Int
  newIntel : List CandidateItem
  escalations : List Escalation
  tierChanges : List TierChange
  noChange : List String
  needsReview : List NeedsReviewEntry
deriving DecidableEq, Repr

/-- Result shape returned by `validateRumour` / `validatePlayerIdentity` in
`scripts/validate.mjs`: a validity flag plus error strings. -/
structure ValidationResult where
  valid : Bool
  errors : List String
deriving DecidableEq, Repr

/-- Result shape returned by `validateTierConsistency`: a validity flag plus
warning strings (advisory only). -/
structure TierResult where
  valid : Bool
  warnings : List String
deriving DecidableEq, Repr

/-- An error thrown by an upstream API call, as inspected by `withRetry`
(`err.status`, `err.message`). -/
structure ApiError where
  status : Option Int
  message : String
deriving DecidableEq, Repr

-- ── JS-truthiness helpers ─────────────────────────────────────────────────

/-- JS `s || d` for a possibly-missing string: `undefined`, `null` and the
empty string are falsy. -/
def jsStringOr (o : Option String) (d : String) : String :=
  match o with
  | some s => if s == "" then d else s
  | none => d

/-- Plain JS template interpolation of a possibly-missing string
(`undefined` prints as "undefined"). -/
def jsShow (o : Option String) : String :=
  match o with
  | some s => s
  | none => "undefined"

/-- JS `n || d` for a possibly-missing number: `undefined`, `null` and `0`
are falsy (used for `delta.sweepNumber || playersData.meta.sweepNumber + 1`). -/
def jsIntOr (o : Option Int) (d : Int) : Int :=
  match o with
  | some n => if n == 0 then d else n
  | none => d

-- ── String containment (JS String.prototype.includes) ─────────────────────

/-- Whether `pat` occurs at the head of `s`. -/
def listStarts (pat s : List Char) : Bool :=
  match pat, s with
  | [], _ => true
  | _ :: _, [] => false
  | a :: ps, b :: ss => a == b && listStarts ps ss

/-- Whether `pat` occurs contiguously anywhere in the list. -/
def listHas (pat : List Char) : List Char → Bool
  | [] => pat.isEmpty
  | b :: ss => listStarts pat (b :: ss) || listHas pat ss

/-- JS `hay.includes(pat)`. -/
def strIncludes (hay pat : String) : Bool :=
  listHas pat.data hay.data

-- ── JSON recovery (the regex match from first brace to last brace) ────────

/-- Split a character list at the first occurrence of an opening brace:
returns the brace-free part before it and the remainder starting with it. -/
def firstBraceSplit : List Char → Option (List Char × List Char)
  | [] => none
  | c :: cs =>
    if c = '{' then some ([], c :: cs)
    else
      match firstBraceSplit cs with
      | some (pre, rest) => some (c :: pre, rest)
      | none => none

/-- Split a character list after the last occurrence of a closing brace:
returns the part up to and including it, and the closing-brace-free tail. -/
def splitLastClose : List Char → Option (List Char × List Char)
  | [] => none
  | c :: cs =>
    match splitLastClose cs with
    | some (body, post) => some (c :: body, post)
    | none => if c = '}' then some ([c], cs) else none

/-- The JSON-recovery boundary in `runSweep`:
`jsonText.match(/\x7b[\s\S]*\x7d/)`.  The leftmost greedy match of that
regex is exactly the substring from the first opening brace of the text to
the last closing brace of the text (provided the latter comes after the
former); when no such span exists `match` returns `null` and the script
throws. -/
def extractJsonSpan (s : String) : Option String :=
  match firstBraceSplit s.data with
  | none => none
  | some (_, rest) =>
    match splitLastClose rest with
    | none => none
    | some (body, _) => some (String.mk body)

-- ── Retry helper (`withRetry`) ────────────────────────────────────────────

/-- `withRetry`'s rate-limit test:
`err.status === 429 || (err.message && err.message.includes("rate_limit"))`. -/
def isRateLimitErr (e : ApiError) : Bool :=
  e.status == some 429 || strIncludes e.message "rate_limit"

/-- The loop of `withRetry`.  `fn attempt` is the outcome of the `attempt`-th
call of the wrapped thunk; the result pairs the list of waits performed (in
seconds: `attempt * 60`) with the final outcome (`none` would mean the loop
fell through, which cannot happen for `attempt ≤ maxRetries` since the last
attempt either returns or throws).  The `fuel` argument only bounds the
recursion; `fuel = maxRetries` suffices because every recursive step
requires `attempt < maxRetries`. -/
def withRetryGo {α : Type} (fn : Nat → Except ApiError α) (maxRetries : Nat) :
    Nat → Nat → List Nat × Option (Except ApiError α)
  | 0, _ => ([], none)
  | fuel + 1, attempt =>
    if maxRetries < attempt then ([], none)
    else
      match fn attempt with
      | .ok a => ([], some (.ok a))
      | .error e =>
        if isRateLimitErr e && decide (attempt < maxRetries) then
          let r := withRetryGo fn maxRetries fuel (attempt + 1)
          (attempt * 60 :: r.1, r.2)
        else ([], some (.error e))

/-- `withRetry(fn, label)` with the default `maxRetries = 3`. -/
def withRetry {α : Type} (fn : Nat → Except ApiError α) :
    List Nat × Option (Except ApiError α) :=
  withRetryGo fn 3 3 1

-- ── Validation orchestration (`runSweep`, lines 683–755) ──────────────────

/-- The error accumulation for one `newIntel` item:
schema errors (or "Missing rumor object" when the item carries no rumour)
followed by identity errors.  `vR` embeds `validateRumour` and `vI` embeds
`validatePlayerIdentity` from `scripts/validate.mjs`. -/
def itemErrors (vR : Rumour → ValidationResult)
    (vI : CandidateItem → PlayersData → ValidationResult)
    (pd : PlayersData) (item : CandidateItem) : List String :=
  (match item.rumor with
   | some r => if (vR r).valid then [] else (vR r).errors
   | none => ["Missing rumor object"])
  ++ (if (vI item pd).valid then [] else (vI item pd).errors)

/-- The tier-consistency warning lines logged for one item (only when the
item carries a rumour and the checker reports invalid). -/
def tierWarnLines (vT : Rumour → TierResult) (item : CandidateItem) : List String :=
  match item.rumor with
  | some r =>
    if (vT r).valid then []
    else (vT r).warnings.map (fun w => "TIER WARNING: " ++ jsShow item.playerName ++ " — " ++ w)
  | none => []

/-- The per-item loop of `runSweep`: partitions `newIntel` into the accepted
items (`validatedIntel`) and the rejected items with their errors
(`rejectedIntel`), collecting the tier warning log lines on the side. -/
def partitionIntel (vR : Rumour → ValidationResult)
    (vI : CandidateItem → PlayersData → ValidationResult)
    (vT : Rumour → TierResult) (pd : PlayersData) :
    List CandidateItem →
    List CandidateItem × List (CandidateItem × List String) × List String
  | [] => ([], [], [])
  | item :: rest =>
    let errs := itemErrors vR vI pd item
    let ws := tierWarnLines vT item
    let r := partitionIntel vR vI vT pd rest
    if errs = [] then (item :: r.1, r.2.1, ws ++ r.2.2)
    else (r.1, (item, errs) :: r.2.1, ws ++ r.2.2)

/-- Modelled from the spec: `validateEscalation` lives in
`scripts/validate.mjs`, which is not among the sources.  Per §4.6 of the
spec an escalation record "must reference a known player id and a new status
drawn from a fixed closed set"; the closed status set is not enumerated by
the spec and is taken as the parameter `statusSet`.  Only the validity bit
is modelled, since the orchestration uses `result.valid` solely to filter. -/
def validateEscalation (statusSet : List String) (esc : Escalation)
    (pd : PlayersData) : Bool :=
  pd.players.any (fun p => p.id == esc.playerId) && statusSet.contains esc.newValue

/-- Modelled from the spec: `validateTierChange` lives in
`scripts/validate.mjs`, which is not among the sources.  Per §4.6 of the
spec a tier-change record "must reference a known player id and a new value
drawn from the fixed set A, B, C". -/
def validateTierChange (tc : TierChange) (pd : PlayersData) : Bool :=
  pd.players.any (fun p => p.id == tc.playerId) &&
    (tc.newTier == "A" || tc.newTier == "B" || tc.newTier == "C")

/-- The needs-review entry synthesized for a rejected item
(`rejectedIntel.map(...)` in `runSweep`): JS truthiness turns a missing or
empty name/detail into "Unknown", and the reason prefixes the errors joined
with a semicolon. -/
def reviewEntryOfPair (pr : CandidateItem × List String) : NeedsReviewEntry :=
  { playerId := pr.1.playerId
    playerName := jsStringOr pr.1.playerName "Unknown"
    detail := jsStringOr (pr.1.rumor.map (fun r => r.detail)) "Unknown"
    reason := "Auto-rejected: " ++ String.intercalate "; " pr.2 }

/-- The whole validation step of `runSweep` applied to a parsed delta:
`newIntel` is replaced by the accepted items, the rejected items are appended
to `needsReview`, and `escalations` / `tierChanges` are silently filtered.
The second component is the tier-consistency warning log. -/
def validateDelta (vR : Rumour → ValidationResult)
    (vI : CandidateItem → PlayersData → ValidationResult)
    (vT : Rumour → TierResult) (statusSet : List String)
    (pd : PlayersData) (delta : Delta) : Delta × List String :=
  let r := partitionIntel vR vI vT pd delta.newIntel
  ({ delta with
      newIntel := r.1
      needsReview := delta.needsReview ++ r.2.1.map reviewEntryOfPair
      escalations := delta.escalations.filter (fun e => validateEscalation statusSet e pd)
      tierChanges := delta.tierChanges.filter (fun t => validateTierChange t pd) },
   r.2.2)

-- ── Merge engine (`applyDelta`, lines 761–832) ────────────────────────────

/-- `playersData.players.find(p => p.id === item.playerId)`. -/
def findPlayer (pd : PlayersData) (pid : Int) : Option Player :=
  pd.players.find? (fun p => p.id == pid)

/-- In-place mutation of the first roster player with the given id (the JS
loop mutates the object returned by `find`). -/
def updateFirstPlayer (l : List Player) (pid : Int) (f : Player → Player) :
    List Player :=
  match l with
  | [] => []
  | p :: ps => if p.id == pid then f p :: ps else p :: updateFirstPlayer ps pid f

/-- JS `String(playerId)`, the key into `intel.json`. -/
def intelKey (pid : Int) : String := toString pid

/-- Lookup `obj[k]` in a JS object modelled as an ordered association list. -/
def lookupKey {β : Type} (l : List (String × β)) (k : String) : Option β :=
  (l.find? (fun p => p.1 == k)).map (fun p => p.2)

/-- Assignment `obj[k] = v` in a JS object modelled as an ordered association
list: replaces the entry in place when the key exists, otherwise appends it
(JS object insertion order). -/
def setKey {β : Type} (l : List (String × β)) (k : String) (v : β) :
    List (String × β) :=
  match l with
  | [] => [(k, v)]
  | p :: ps => if p.1 == k then (k, v) :: ps else p :: setKey ps k v

/-- Lookup of `intelData[key]`. -/
def lookupIntel (idata : IntelData) (k : String) : Option IntelEntry :=
  lookupKey idata k

/-- Assignment `intelData[key] = v`. -/
def setIntel (idata : IntelData) (k : String) (v : IntelEntry) : IntelData :=
  setKey idata k v

/-- Assignment `obj[k] = v` inside one intel entry. -/
def setField (o : IntelEntry) (k v : String) : IntelEntry :=
  setKey o k v

/-- `Object.assign(target, updates)`: shallow merge, field by field in the
order of `updates`. -/
def objAssign (o : IntelEntry) (u : IntelEntry) : IntelEntry :=
  u.foldl (fun acc p => setField acc p.1 p.2) o

/-- Field lookup inside one intel entry (`obj[k]`). -/
def lookupField (o : IntelEntry) (k : String) : Option String :=
  lookupKey o k

/-- The value the last assignment of `k` in `u` would give (used to state
the `Object.assign` overwrite semantics). -/
def lastVal : IntelEntry → String → Option String
  | [], _ => none
  | p :: ps, k =>
    match lastVal ps k with
    | some v => some v
    | none => if p.1 == k then some p.2 else none

/-- The current intel entry of a player, with a missing entry read as the
empty object (the script runs `if (!intelData[key]) intelData[key] = {}`
just before merging). -/
def intelEntryFor (idata : IntelData) (pid : Int) : IntelEntry :=
  (lookupIntel idata (intelKey pid)).getD []

/-- The intel-update block of the `applyDelta` loop body:
create the entry if absent, then `Object.assign` the supplied fields. -/
def applyIntelUpdates (idata : IntelData) (pid : Int) (u : IntelEntry) : IntelData :=
  setIntel idata (intelKey pid) (objAssign (intelEntryFor idata pid) u)

/-- The merge state threaded through `applyDelta`: the two stores plus the
aggregate `changed` flag. -/
abbrev SweepState := PlayersData × IntelData × Bool

/-- The `if (item.intelUpdates && typeof item.intelUpdates === "object")`
block of the `applyDelta` loop body (a JS `null` is falsy, hence `none`). -/
def applyIntelStep (item : CandidateItem) (st : SweepState) : SweepState :=
  match item.intelUpdates with
  | some u => (st.1, applyIntelUpdates st.2.1 item.playerId u, true)
  | none => st

/-- One iteration of the `newIntel` loop of `applyDelta`.  An unknown player
id skips the item; a rumour that `isDuplicate` flags against the player's
current history hits `continue`, which also skips the item's intel updates;
otherwise the rumour is `unshift`ed onto the player's history and the
`changed` flag is set, after which the intel updates are merged. -/
def applyItem (isDup : Rumour → List Rumour → Bool) (st : SweepState)
    (item : CandidateItem) : SweepState :=
  match findPlayer st.1 item.playerId with
  | none => st
  | some player =>
    match item.rumor with
    | some r =>
      if isDup r player.rumors then st
      else
        applyIntelStep item
          ({ st.1 with
              players := updateFirstPlayer st.1.players item.playerId
                (fun p => { p with rumors := r :: p.rumors }) },
           st.2.1, true)
    | none => applyIntelStep item st

/-- One iteration of the `escalations` loop of `applyDelta`: an unknown
player id is skipped, and only `field === "status"` records mutate. -/
def applyEsc (st : SweepState) (esc : Escalation) : SweepState :=
  match findPlayer st.1 esc.playerId with
  | none => st
  | some _ =>
    if esc.field == "status" then
      ({ st.1 with
          players := updateFirstPlayer st.1.players esc.playerId
            (fun p => { p with status := esc.newValue }) },
       st.2.1, true)
    else st

/-- One iteration of the `tierChanges` loop of `applyDelta`. -/
def applyTC (st : SweepState) (tc : TierChange) : SweepState :=
  match findPlayer st.1 tc.playerId with
  | none => st
  | some _ =>
    ({ st.1 with
        players := updateFirstPlayer st.1.players tc.playerId
          (fun p => { p with sweepTier := tc.newTier }) },
     st.2.1, true)

/-- `applyDelta(delta)`: folds the three loops over the in-memory stores and
returns them with the aggregate `changed` flag. -/
def applyDelta (isDup : Rumour → List Rumour → Bool) (pd : PlayersData)
    (idata : IntelData) (delta : Delta) : SweepState :=
  let st1 := delta.newIntel.foldl (applyItem isDup) (pd, idata, false)
  let st2 := delta.escalations.foldl applyEsc st1
  delta.tierChanges.foldl applyTC st2

-- ── The main pipeline as an event trace ───────────────────────────────────

/-- The files `main` and `runSweep` touch, as symbolic tags;
`pathString` recovers the concrete path built by the script. -/
inductive SweepPath
  | playersJson
  | intelJson
  | rawFindings
  | rawResponse
  | deltaReport (ts : String)
  | playersBackup (ts : String)
  | intelBackup (ts : String)
deriving DecidableEq, Repr

/-- The concrete path the script builds for each symbolic path (relative to
the repository root). -/
def pathString : SweepPath → String
  | .playersJson => "data/players.json"
  | .intelJson => "data/intel.json"
  | .rawFindings => "sweeps/last_raw_findings.txt"
  | .rawResponse => "sweeps/last_raw_response.txt"
  | .deltaReport ts => "sweeps/sweep_" ++ ts ++ ".json"
  | .playersBackup ts => "sweeps/backups/players_pre_sweep_" ++ ts ++ ".json"
  | .intelBackup ts => "sweeps/backups/intel_pre_sweep_" ++ ts ++ ".json"

/-- What a write puts into a file (serialized stores are kept as values). -/
inductive FileContent
  | raw (s : String)
  | deltaReport
  | playersStore (d : PlayersData)
  | intelStore (d : IntelData)
deriving DecidableEq, Repr

/-- One observable file-system or process effect of the run. -/
inductive Event
  | write (p : SweepPath) (c : FileContent)
  | copyFile (src dst : SweepPath)
  | execBuild
deriving DecidableEq, Repr

/-- The outcome of a run: its effect trace in order, the process exit code,
and the final in-memory stores. -/
structure RunResult where
  events : List Event
  exitCode : Nat
  finalPlayers : PlayersData
  finalIntel : IntelData
deriving DecidableEq, Repr

/-- One batch's contribution to `allFindings` in the Phase 1 loop of
`runSweep`: a failed batch is caught and contributes a SEARCH FAILED marker
instead of aborting. -/
def batchFindings (i : Nat) (r : Except ApiError String) : String :=
  match r with
  | .ok f => "\n=== Batch " ++ toString (i + 1) ++ " findings ===\n" ++ f ++ "\n"
  | .error _ => "\n=== Batch " ++ toString (i + 1) ++ ": SEARCH FAILED ===\n"

/-- The `allFindings` accumulator after the Phase 1 batch loop. -/
def buildFindings (results : List (Except ApiError String)) : String :=
  String.join ((results.enum).map (fun p => batchFindings p.1 p.2))

/-- The run from the Phase 2 response text onward (`runSweep` lines 661–757
followed by the transfer-tracker branch of `main`, lines 882–927): recover
the JSON span, parse it (`decode` stands for `JSON.parse`, `none` for a
throw), validate, apply, and persist with backups unless nothing changed or
`--dry-run` was given.  A parse failure preserves the raw response text and
exits non-zero before any store is touched. -/
def sweepFromJson (vR : Rumour → ValidationResult)
    (vI : CandidateItem → PlayersData → ValidationResult)
    (vT : Rumour → TierResult) (statusSet : List String)
    (isDup : Rumour → List Rumour → Bool)
    (decode : String → Option Delta) (ts today : String)
    (dryRun buildOk : Bool) (pd : PlayersData) (idata : IntelData)
    (jsonText : String) : RunResult :=
  let parseFail : RunResult :=
    { events := [.write .rawResponse (.raw jsonText)]
      exitCode := 1
      finalPlayers := pd
      finalIntel := idata }
  match extractJsonSpan jsonText with
  | none => parseFail
  | some span =>
    match decode span with
    | none => parseFail
    | some delta0 =>
      let delta := (validateDelta vR vI vT statusSet pd delta0).1
      let st := applyDelta isDup pd idata delta
      let reportEvt : Event := .write (.deltaReport ts) .deltaReport
      if st.2.2 = false then
        { events := [reportEvt], exitCode := 0
          finalPlayers := st.1, finalIntel := st.2.1 }
      else if dryRun then
        { events := [reportEvt], exitCode := 0
          finalPlayers := st.1, finalIntel := st.2.1 }
      else
        let pd2 : PlayersData :=
          { st.1 with
              meta := { lastSweep := today
                        sweepNumber := jsIntOr delta.sweepNumber (st.1.meta.sweepNumber + 1) } }
        { events := [reportEvt,
            .copyFile .playersJson (.playersBackup ts),
            .copyFile .intelJson (.intelBackup ts),
            .write .playersJson (.playersStore pd2),
            .write .intelJson (.intelStore st.2.1),
            .execBuild]
          exitCode := if buildOk then 0 else 1
          finalPlayers := pd2
          finalIntel := st.2.1 }

/-- The run from the Phase 1 results onward.  The Phase 1 batch loop never
aborts (each failure is caught and recorded in the findings file); a Phase 2
failure — after `withRetry` gives up — exits non-zero before the
validation/merge engine runs. -/
def sweepRun (vR : Rumour → ValidationResult)
    (vI : CandidateItem → PlayersData → ValidationResult)
    (vT : Rumour → TierResult) (statusSet : List String)
    (isDup : Rumour → List Rumour → Bool)
    (decode : String → Option Delta) (ts today : String)
    (dryRun buildOk : Bool) (pd : PlayersData) (idata : IntelData)
    (phase1 : List (Except ApiError String))
    (phase2 : Except ApiError String) : RunResult :=
  let findingsEvt : Event := .write .rawFindings (.raw (buildFindings phase1))
  match phase2 with
  | .error _ =>
    { events := [findingsEvt], exitCode := 1
      finalPlayers := pd, finalIntel := idata }
  | .ok jsonText =>
    let r := sweepFromJson vR vI vT statusSet isDup decode ts today dryRun
        buildOk pd idata jsonText
    { r with events := findingsEvt :: r.events }

-- ── Concrete fixtures used by witnesses and counterexamples ───────────────

/-- A rumour already present in the sample player's history. -/
def sampleRumour : Rumour :=
  { date := "Feb 8, 2026", club := "Sporting CP"
    detail := "Medical scheduled for loan move", source := "Record"
    tier := 2, status := "advanced", recent := true }

/-- A rumour not present in the sample player's history. -/
def freshRumour : Rumour :=
  { date := "Feb 9, 2026", club := "Metz"
    detail := "Contract talks opened", source := "AfricaFoot"
    tier := 2, status := "rumour", recent := true }

/-- A one-player roster fixture. -/
def samplePlayer : Player :=
  { id := 1, name := "Test Player", status := "monitoring", sweepTier := "A"
    rumors := [sampleRumour] }

/-- A `players.json` fixture. -/
def samplePD : PlayersData :=
  { meta := { lastSweep := "Jan 1, 2026", sweepNumber := 4 }
    players := [samplePlayer] }

/-- An always-valid validation result. -/
def okResult : ValidationResult := { valid := true, errors := [] }

/-- A schema validator that accepts everything. -/
def vROk : Rumour → ValidationResult := fun _ => okResult

/-- An identity validator that accepts everything. -/
def vIOk : CandidateItem → PlayersData → ValidationResult := fun _ _ => okResult

/-- A tier-consistency checker that never warns. -/
def vTOk : Rumour → TierResult := fun _ => { valid := true, warnings := [] }

/-- A tier-consistency checker that always warns. -/
def vTWarn : Rumour → TierResult :=
  fun _ => { valid := false, warnings := ["speculative source labeled tier 1"] }

/-- A duplicate detector flagging exact repeats of stored rumours. -/
def memberDup : Rumour → List Rumour → Bool := fun r h => h.contains r

/-- A duplicate detector that never flags. -/
def alwaysFresh : Rumour → List Rumour → Bool := fun _ _ => false

/-- A delta with every array empty. -/
def emptyDelta : Delta :=
  { sweepNumber := none, newIntel := [], escalations := [], tierChanges := []
    noChange := [], needsReview := [] }

/-- An item whose rumour exactly repeats the stored one, with no intel. -/
def dupRumourItem : CandidateItem :=
  { playerId := 1, playerName := some "Test Player", rumor := some sampleRumour
    intelUpdates := none, reasoning := "repeat" }

/-- An item whose rumour exactly repeats the stored one and that also carries
intel updates. -/
def dupIntelItem : CandidateItem :=
  { playerId := 1, playerName := some "Test Player", rumor := some sampleRumour
    intelUpdates := some [("contract", "2027")], reasoning := "repeat with intel" }

/-- An item carrying no rumour, only intel updates. -/
def intelOnlyItem : CandidateItem :=
  { playerId := 1, playerName := some "Test Player", rumor := none
    intelUpdates := some [("contract", "2027")], reasoning := "intel only" }

/-- An item carrying a genuinely new rumour. -/
def freshItem : CandidateItem :=
  { playerId := 1, playerName := some "Test Player", rumor := some freshRumour
    intelUpdates := none, reasoning := "new" }

/-- A delta whose only item is `intelOnlyItem`. -/
def intelOnlyDelta : Delta := { emptyDelta with newIntel := [intelOnlyItem] }

/-- A delta whose only item is `freshItem`. -/
def freshDelta : Delta := { emptyDelta with newIntel := [freshItem] }

/-- A rate-limit error as produced by the SDK. -/
def rlErr : ApiError := { status := some 429, message := "rate limited" }

/-- A non-rate-limit upstream error. -/
def fatalErr : ApiError := { status := some 500, message := "overloaded" }

/-- A thunk that hits the rate limit on every attempt. -/
def fnAllRateLimited : Nat → Except ApiError String := fun _ => .error rlErr

/-- A thunk that fails with a non-rate-limit error. -/
def fnFatal : Nat → Except ApiError String := fun _ => .error fatalErr

/-- A concrete run that persists: one fresh rumour is merged. -/
def persistRun : RunResult :=
  sweepRun vROk vIOk vTOk [] alwaysFresh (fun _ => some freshDelta) "TS"
    "Feb 9, 2026" false true samplePD [] [] (.ok "x{y}z")

/-- A concrete run in which nothing changes. -/
def quietRun : RunResult :=
  sweepRun vROk vIOk vTOk [] alwaysFresh (fun _ => some emptyDelta) "TS"
    "Feb 9, 2026" false true samplePD [] [] (.ok "x{y}z")

/-- An escalation referencing a known player with an allowed status. -/
def goodEsc : Escalation :=
  { playerId := 1, playerName := "Test Player", field := "status"
    oldValue := "monitoring", newValue := "signed", source := "club site" }

/-- An escalation referencing an unknown player id. -/
def badEsc : Escalation :=
  { playerId := 99, playerName := "Ghost", field := "status"
    oldValue := "monitoring", newValue := "signed", source := "blog" }

/-- A tier change to a value inside the fixed set. -/
def goodTC : TierChange :=
  { playerId := 1, playerName := "Test Player", oldTier := "A", newTier := "B"
    reason := "cooling interest" }

/-- A tier change to a value outside the fixed set. -/
def badTC : TierChange :=
  { playerId := 1, playerName := "Test Player", oldTier := "A", newTier := "Z"
    reason := "typo" }

/-- A delta carrying only side-channel records. -/
def sideDelta : Delta :=
  { emptyDelta with escalations := [goodEsc, badEsc], tierChanges := [goodTC, badTC] }

-- ── Lemmas about the JSON-span extraction ─────────────────────────────────

theorem firstBraceSplit_spec :
    ∀ (cs pre rest : List Char), firstBraceSplit cs = some (pre, rest) →
      cs = pre ++ rest ∧ '{' ∉ pre ∧ ∃ tl, rest = '{' :: tl := by
  intro cs
  induction cs with
  | nil => intro pre rest h; simp [firstBraceSplit] at h
  | cons c cs ih =>
    intro pre rest h
    simp only [firstBraceSplit] at h
    by_cases hc : c = '{'
    · rw [if_pos hc] at h
      simp only [Option.some.injEq, Prod.mk.injEq] at h
      obtain ⟨rfl, rfl⟩ := h
      subst hc
      exact ⟨rfl, by simp, ⟨cs, rfl⟩⟩
    · rw [if_neg hc] at h
      cases hfb : firstBraceSplit cs with
      | none => rw [hfb] at h; simp at h
      | some pr =>
        obtain ⟨pre', rest'⟩ := pr
        rw [hfb] at h
        simp only [Option.some.injEq, Prod.mk.injEq] at h
        obtain ⟨rfl, rfl⟩ := h
        obtain ⟨h1, h2, tl, h3⟩ := ih _ _ hfb
        refine ⟨by simp [h1], ?_, ⟨tl, h3⟩⟩
        intro hmem
        rcases List.mem_cons.mp hmem with h4 | h4
        · exact hc h4.symm
        · exact h2 h4

theorem splitLastClose_none :
    ∀ cs : List Char, splitLastClose cs = none → '}' ∉ cs := by
  intro cs
  induction cs with
  | nil => intro _; simp
  | cons c cs ih =>
    intro h
    simp only [splitLastClose] at h
    cases hsc : splitLastClose cs with
    | some pr => rw [hsc] at h; simp at h
    | none =>
      rw [hsc] at h
      by_cases hc : c = '}'
      · rw [if_pos hc] at h; simp at h
      · rw [if_neg hc] at h
        intro hmem
        rcases List.mem_cons.mp hmem with h1 | h1
        · exact hc h1.symm
        · exact ih hsc h1

theorem splitLastClose_spec :
    ∀ (cs body post : List Char), splitLastClose cs = some (body, post) →
      cs = body ++ post ∧ '}' ∉ post ∧ body.getLast? = some '}' := by
  intro cs
  induction cs with
  | nil => intro b p h; simp [splitLastClose] at h
  | cons c cs ih =>
    intro b p h
    simp only [splitLastClose] at h
    cases hsc : splitLastClose cs with
    | some pr =>
      obtain ⟨body', post'⟩ := pr
      rw [hsc] at h
      simp only [Option.some.injEq, Prod.mk.injEq] at h
      obtain ⟨rfl, rfl⟩ := h
      obtain ⟨h1, h2, h3⟩ := ih _ _ hsc
      refine ⟨by simp [h1], h2, ?_⟩
      cases body' with
      | nil => simp at h3
      | cons b0 bs => rw [List.getLast?_cons_cons]; exact h3
    | none =>
      rw [hsc] at h
      by_cases hc : c = '}'
      · rw [if_pos hc] at h
        simp only [Option.some.injEq, Prod.mk.injEq] at h
        obtain ⟨rfl, rfl⟩ := h
        subst hc
        exact ⟨rfl, splitLastClose_none cs hsc, rfl⟩
      · rw [if_neg hc] at h; simp at h

theorem listSpan_extract :
    ∀ (pre mid post : List Char),
      ∃ pr, firstBraceSplit (pre ++ '{' :: (mid ++ '}' :: post)) = some pr ∧
        splitLastClose pr.2 ≠ none := by
  intro pre
  induction pre with
  | nil =>
    intro mid post
    refine ⟨([], '{' :: (mid ++ '}' :: post)), by simp [firstBraceSplit], ?_⟩
    intro hnone
    exact (splitLastClose_none _ hnone) (by simp)
  | cons c pre ih =>
    intro mid post
    obtain ⟨pr, h1, h2⟩ := ih mid post
    obtain ⟨a, b⟩ := pr
    by_cases hc : c = '{'
    · refine ⟨([], c :: (pre ++ '{' :: (mid ++ '}' :: post))), by simp [firstBraceSplit, hc], ?_⟩
      intro hnone
      exact (splitLastClose_none _ hnone) (by simp)
    · refine ⟨(c :: a, b), ?_, h2⟩
      show firstBraceSplit (c :: (pre ++ '{' :: (mid ++ '}' :: post))) = some (c :: a, b)
      simp only [firstBraceSplit, if_neg hc]
      rw [h1]

-- ── C2: the JSON recovery boundary ────────────────────────────────────────

/-- Claim C2 — The boundary recovering JSON from the Phase 2 text extracts the
substring from the first opening brace through the last closing brace of the
text (the extracted span starts with the first such brace, ends with the
last, and whenever any brace pair with an opening brace before a closing
brace exists the extraction succeeds); when no such span exists, the run
writes the raw response text to `sweeps/last_raw_response.txt`, exits with
code 1, and performs no merge and no store write. -/
theorem json_recovery_boundary :
    ∀ (vR : Rumour → ValidationResult)
      (vI : CandidateItem → PlayersData → ValidationResult)
      (vT : Rumour → TierResult) (statusSet : List String)
      (isDup : Rumour → List Rumour → Bool) (decode : String → Option Delta)
      (ts today : String) (dryRun buildOk : Bool) (pd : PlayersData)
      (idata : IntelData) (phase1 : List (Except ApiError String))
      (jsonText : String),
    (extractJsonSpan jsonText = none →
      sweepRun vR vI vT statusSet isDup decode ts today dryRun buildOk pd
          idata phase1 (.ok jsonText) =
        { events := [.write .rawFindings (.raw (buildFindings phase1)),
                     .write .rawResponse (.raw jsonText)]
          exitCode := 1, finalPlayers := pd, finalIntel := idata }) ∧
    (∀ span, extractJsonSpan jsonText = some span →
      ∃ pre post, jsonText.data = pre ++ span.data ++ post ∧
        '{' ∉ pre ∧ '}' ∉ post ∧
        span.data.head? = some '{' ∧ span.data.getLast? = some '}') ∧
    ((∃ pre mid post, jsonText.data = pre ++ '{' :: (mid ++ '}' :: post)) →
      extractJsonSpan jsonText ≠ none) := by
  intro vR vI vT statusSet isDup decode ts today dryRun buildOk pd idata phase1 jsonText
  refine ⟨?_, ?_, ?_⟩
  · intro hnone
    simp only [sweepRun, sweepFromJson, hnone]
  · intro span hsome
    simp only [extractJsonSpan] at hsome
    split at hsome
    · simp at hsome
    · rename_i pre0 rest hfb
      split at hsome
      · simp at hsome
      · rename_i body post hsc
        simp only [Option.some.injEq] at hsome
        obtain ⟨h1, h2, tl, h3⟩ := firstBraceSplit_spec _ _ _ hfb
        obtain ⟨h4, h5, h6⟩ := splitLastClose_spec _ _ _ hsc
        have hdata : span.data = body := by rw [← hsome]
        refine ⟨pre0, post, ?_, h2, h5, ?_, ?_⟩
        · rw [h1, h4, hdata, List.append_assoc]
        · rw [hdata]
          cases body with
          | nil => simp at h6
          | cons b0 bs =>
            have hb0 : b0 = '{' := by
              have h7 := h4.symm.trans h3
              simpa using congrArg List.head? h7
            simp [hb0]
        · rw [hdata]; exact h6
  · intro hex
    obtain ⟨pre, mid, post, hdecomp⟩ := hex
    obtain ⟨pr, h1, h2⟩ := listSpan_extract pre mid post
    obtain ⟨a, b⟩ := pr
    intro hnone
    simp only [extractJsonSpan, hdecomp, h1] at hnone
    split at hnone
    · rename_i hsc; exact h2 hsc
    · simp at hnone

/-- Witness for C2: a response with no brace span aborts with exit 1 after
saving the raw text, touching neither store. -/
theorem json_recovery_boundary_witness :
    sweepRun vROk vIOk vTOk [] alwaysFresh (fun _ => some emptyDelta) "TS"
        "Feb 9, 2026" false true samplePD [] [] (.ok "no json here") =
      { events := [.write .rawFindings (.raw (buildFindings [])),
                   .write .rawResponse (.raw "no json here")]
        exitCode := 1, finalPlayers := samplePD, finalIntel := [] } :=
  (json_recovery_boundary vROk vIOk vTOk [] alwaysFresh
    (fun _ => some emptyDelta) "TS" "Feb 9, 2026" false true samplePD [] []
    "no json here").1 (by decide)

-- ── Lemmas about the validation partition ─────────────────────────────────

theorem partition_acc_sub (vR : Rumour → ValidationResult)
    (vI : CandidateItem → PlayersData → ValidationResult)
    (vT : Rumour → TierResult) (pd : PlayersData) :
    ∀ (items : List CandidateItem) (item : CandidateItem),
      item ∈ (partitionIntel vR vI vT pd items).1 →
      itemErrors vR vI pd item = [] := by
  intro items
  induction items with
  | nil => intro item h; simp [partitionIntel] at h
  | cons it rest ih =>
    intro item h
    simp only [partitionIntel] at h
    by_cases he : itemErrors vR vI pd it = []
    · rw [if_pos he] at h
      rcases List.mem_cons.mp h with h1 | h1
      · rw [h1]; exact he
      · exact ih item h1
    · rw [if_neg he] at h
      exact ih item h

theorem partition_mem_acc (vR : Rumour → ValidationResult)
    (vI : CandidateItem → PlayersData → ValidationResult)
    (vT : Rumour → TierResult) (pd : PlayersData) :
    ∀ (items : List CandidateItem) (item : CandidateItem),
      item ∈ items → itemErrors vR vI pd item = [] →
      item ∈ (partitionIntel vR vI vT pd items).1 := by
  intro items
  induction items with
  | nil => intro item h; simp at h
  | cons it rest ih =>
    intro item h he
    simp only [partitionIntel]
    rcases List.mem_cons.mp h with h1 | h1
    · subst h1
      rw [if_pos he]
      exact List.mem_cons_self _ _
    · by_cases he2 : itemErrors vR vI pd it = []
      · rw [if_pos he2]
        exact List.mem_cons_of_mem _ (ih item h1 he)
      · rw [if_neg he2]
        exact ih item h1 he

theorem partition_mem_rej (vR : Rumour → ValidationResult)
    (vI : CandidateItem → PlayersData → ValidationResult)
    (vT : Rumour → TierResult) (pd : PlayersData) :
    ∀ (items : List CandidateItem) (item : CandidateItem),
      item ∈ items → itemErrors vR vI pd item ≠ [] →
      (item, itemErrors vR vI pd item) ∈ (partitionIntel vR vI vT pd items).2.1 := by
  intro items
  induction items with
  | nil => intro item h; simp at h
  | cons it rest ih =>
    intro item h he
    simp only [partitionIntel]
    rcases List.mem_cons.mp h with h1 | h1
    · subst h1
      rw [if_neg he]
      exact List.mem_cons_self _ _
    · by_cases he2 : itemErrors vR vI pd it = []
      · rw [if_pos he2]
        exact ih item h1 he
      · rw [if_neg he2]
        exact List.mem_cons_of_mem _ (ih item h1 he)

theorem partition_indep_vT (vR : Rumour → ValidationResult)
    (vI : CandidateItem → PlayersData → ValidationResult)
    (vT₁ vT₂ : Rumour → TierResult) (pd : PlayersData) :
    ∀ items : List CandidateItem,
      (partitionIntel vR vI vT₁ pd items).1 = (partitionIntel vR vI vT₂ pd items).1 ∧
      (partitionIntel vR vI vT₁ pd items).2.1 = (partitionIntel vR vI vT₂ pd items).2.1 := by
  intro items
  induction items with
  | nil => simp [partitionIntel]
  | cons it rest ih =>
    simp only [partitionIntel]
    by_cases he : itemErrors vR vI pd it = []
    · rw [if_pos he, if_pos he]
      exact ⟨by rw [ih.1], ih.2⟩
    · rw [if_neg he, if_neg he]
      exact ⟨ih.1, by rw [ih.2]⟩

-- ── C3: rejection routes to needs-review ──────────────────────────────────

/-- Claim C3 — An item that accumulates at least one schema or identity error
never reaches the accepted list; instead an entry with its player id, its
claimed name, its rumour detail text and the concatenation of all
accumulated error strings (prefixed "Auto-rejected: " and joined with "; ")
is appended to the `needsReview` list. -/
theorem rejected_item_routed :
    ∀ (vR : Rumour → ValidationResult)
      (vI : CandidateItem → PlayersData → ValidationResult)
      (vT : Rumour → TierResult) (statusSet : List String) (pd : PlayersData)
      (d : Delta) (item : CandidateItem),
      item ∈ d.newIntel →
      itemErrors vR vI pd item ≠ [] →
      item ∉ ((validateDelta vR vI vT statusSet pd d).1).newIntel ∧
      ({ playerId := item.playerId
         playerName := jsStringOr item.playerName "Unknown"
         detail := jsStringOr (item.rumor.map (fun r => r.detail)) "Unknown"
         reason := "Auto-rejected: " ++
           String.intercalate "; " (itemErrors vR vI pd item) } : NeedsReviewEntry)
        ∈ ((validateDelta vR vI vT statusSet pd d).1).needsReview := by
  intro vR vI vT statusSet pd d item hmem herr
  constructor
  · intro hacc
    simp only [validateDelta] at hacc
    exact herr (partition_acc_sub vR vI vT pd d.newIntel item hacc)
  · simp only [validateDelta]
    apply List.mem_append_right
    have h := partition_mem_rej vR vI vT pd d.newIntel item hmem herr
    exact List.mem_map_of_mem reviewEntryOfPair h

/-- Witness for C3 at a concrete rejected item. -/
theorem rejected_item_routed_witness :
    intelOnlyItem ∉ ((validateDelta vROk vIOk vTOk [] samplePD intelOnlyDelta).1).newIntel ∧
    ({ playerId := intelOnlyItem.playerId
       playerName := jsStringOr intelOnlyItem.playerName "Unknown"
       detail := jsStringOr (intelOnlyItem.rumor.map (fun r => r.detail)) "Unknown"
       reason := "Auto-rejected: " ++
         String.intercalate "; " (itemErrors vROk vIOk samplePD intelOnlyItem) } : NeedsReviewEntry)
      ∈ ((validateDelta vROk vIOk vTOk [] samplePD intelOnlyDelta).1).needsReview :=
  rejected_item_routed vROk vIOk vTOk [] samplePD intelOnlyDelta intelOnlyItem
    (by decide) (by decide)

-- ── C5: items without a rumour ────────────────────────────────────────────

/-- Claim C5, amended — `validateRumour` is applied only when the item carries
a rumour (the accumulated errors do not depend on it otherwise), but an item
with no rumour always accumulates the error "Missing rumor object" and is
therefore rejected — it never reaches the accepted list, even when the
identity check passes. -/
theorem missing_rumour_rejected :
    ∀ (vR₁ vR₂ : Rumour → ValidationResult)
      (vI : CandidateItem → PlayersData → ValidationResult)
      (vT : Rumour → TierResult) (statusSet : List String) (pd : PlayersData)
      (d : Delta) (item : CandidateItem),
      item.rumor = none →
      (itemErrors vR₁ vI pd item = itemErrors vR₂ vI pd item) ∧
      ("Missing rumor object" ∈ itemErrors vR₁ vI pd item) ∧
      (itemErrors vR₁ vI pd item ≠ []) ∧
      item ∉ ((validateDelta vR₁ vI vT statusSet pd d).1).newIntel := by
  intro vR₁ vR₂ vI vT statusSet pd d item hnone
  have herr : ∀ vR : Rumour → ValidationResult, itemErrors vR vI pd item =
      "Missing rumor object" :: (if (vI item pd).valid then [] else (vI item pd).errors) := by
    intro vR
    simp [itemErrors, hnone]
  refine ⟨by rw [herr vR₁, herr vR₂], ?_, ?_, ?_⟩
  · rw [herr vR₁]; exact List.mem_cons_self _ _
  · rw [herr vR₁]; exact List.cons_ne_nil _ _
  · intro hacc
    simp only [validateDelta] at hacc
    have := partition_acc_sub vR₁ vI vT pd d.newIntel item hacc
    rw [herr vR₁] at this
    exact List.cons_ne_nil _ _ this

/-- Counterexample for C5 as stated: an item with no rumour whose identity
check passes still accumulates "Missing rumor object", is rejected rather
than accepted, and lands in needs-review. -/
theorem missing_rumour_claim_counterexample :
    itemErrors vROk vIOk samplePD intelOnlyItem = ["Missing rumor object"] ∧
    (vIOk intelOnlyItem samplePD).valid = true ∧
    ((validateDelta vROk vIOk vTOk [] samplePD intelOnlyDelta).1).newIntel = [] ∧
    ((validateDelta vROk vIOk vTOk [] samplePD intelOnlyDelta).1).needsReview =
      [{ playerId := 1, playerName := "Test Player", detail := "Unknown"
         reason := "Auto-rejected: Missing rumor object" }] := by
  decide

/-- Witness for the amended C5 at a concrete item. -/
theorem missing_rumour_rejected_witness :
    (itemErrors vROk vIOk samplePD intelOnlyItem =
      itemErrors (fun _ => { valid := false, errors := ["schema broken"] }) vIOk samplePD intelOnlyItem) ∧
    ("Missing rumor object" ∈ itemErrors vROk vIOk samplePD intelOnlyItem) ∧
    (itemErrors vROk vIOk samplePD intelOnlyItem ≠ []) ∧
    intelOnlyItem ∉ ((validateDelta vROk vIOk vTOk [] samplePD intelOnlyDelta).1).newIntel :=
  missing_rumour_rejected vROk (fun _ => { valid := false, errors := ["schema broken"] })
    vIOk vTOk [] samplePD intelOnlyDelta intelOnlyItem (by decide)

-- ── C8: tier warnings never influence acceptance ──────────────────────────

/-- Claim C8 — Tier-consistency warnings have no effect on the
accepted/rejected partition: the validated delta is identical for any two
tier checkers, and an item with zero schema/identity errors is accepted
(while one with errors is rejected) regardless of the tier checker. -/
theorem tier_warnings_no_effect :
    ∀ (vR : Rumour → ValidationResult)
      (vI : CandidateItem → PlayersData → ValidationResult)
      (vT₁ vT₂ : Rumour → TierResult) (statusSet : List String)
      (pd : PlayersData) (d : Delta),
      (validateDelta vR vI vT₁ statusSet pd d).1 =
        (validateDelta vR vI vT₂ statusSet pd d).1 ∧
      (∀ item ∈ d.newIntel, itemErrors vR vI pd item = [] →
        item ∈ ((validateDelta vR vI vT₁ statusSet pd d).1).newIntel) ∧
      (∀ item ∈ d.newIntel, itemErrors vR vI pd item ≠ [] →
        item ∉ ((validateDelta vR vI vT₁ statusSet pd d).1).newIntel) := by
  intro vR vI vT₁ vT₂ statusSet pd d
  obtain ⟨hacc, hrej⟩ := partition_indep_vT vR vI vT₁ vT₂ pd d.newIntel
  refine ⟨?_, ?_, ?_⟩
  · simp only [validateDelta]
    rw [hacc, hrej]
  · intro item hmem he
    simp only [validateDelta]
    exact partition_mem_acc vR vI vT₁ pd d.newIntel item hmem he
  · intro item _ he hacc2
    simp only [validateDelta] at hacc2
    exact he (partition_acc_sub vR vI vT₁ pd d.newIntel item hacc2)

/-- Witness for C8: with an always-warning tier checker the partition equals
the one under a never-warning checker, and a zero-error item is accepted. -/
theorem tier_warnings_no_effect_witness :
    (validateDelta vROk vIOk vTWarn [] samplePD freshDelta).1 =
      (validateDelta vROk vIOk vTOk [] samplePD freshDelta).1 ∧
    freshItem ∈ ((validateDelta vROk vIOk vTWarn [] samplePD freshDelta).1).newIntel := by
  have h := tier_warnings_no_effect vROk vIOk vTWarn vTOk [] samplePD freshDelta
  exact ⟨h.1, h.2.1 freshItem (by decide) (by decide)⟩

-- ── C7: side-channels are filtered silently ───────────────────────────────

/-- Claim C7 — Escalation and tier-change records are validated independently:
a record is retained exactly when it passes its validator (known player id
and new value inside the fixed closed set), failing records are simply
dropped from the delta — they never produce a needs-review entry and have no
effect on the `newIntel` partition. -/
theorem side_channels_filtered_silently :
    ∀ (vR : Rumour → ValidationResult)
      (vI : CandidateItem → PlayersData → ValidationResult)
      (vT : Rumour → TierResult) (statusSet : List String) (pd : PlayersData)
      (d : Delta),
      (∀ esc : Escalation,
        esc ∈ ((validateDelta vR vI vT statusSet pd d).1).escalations ↔
          esc ∈ d.escalations ∧ validateEscalation statusSet esc pd = true) ∧
      (∀ tc : TierChange,
        tc ∈ ((validateDelta vR vI vT statusSet pd d).1).tierChanges ↔
          tc ∈ d.tierChanges ∧ validateTierChange tc pd = true) ∧
      (∀ e1 e2 t1 t2,
        ((validateDelta vR vI vT statusSet pd
            { d with escalations := e1, tierChanges := t1 }).1).needsReview =
          ((validateDelta vR vI vT statusSet pd
            { d with escalations := e2, tierChanges := t2 }).1).needsReview) ∧
      (∀ e1 e2 t1 t2,
        ((validateDelta vR vI vT statusSet pd
            { d with escalations := e1, tierChanges := t1 }).1).newIntel =
          ((validateDelta vR vI vT statusSet pd
            { d with escalations := e2, tierChanges := t2 }).1).newIntel) ∧
      (∀ esc : Escalation, validateEscalation statusSet esc pd = true ↔
        (pd.players.any (fun p => p.id == esc.playerId) = true ∧
          esc.newValue ∈ statusSet)) ∧
      (∀ tc : TierChange, validateTierChange tc pd = true ↔
        (pd.players.any (fun p => p.id == tc.playerId) = true ∧
          (tc.newTier = "A" ∨ tc.newTier = "B" ∨ tc.newTier = "C"))) := by
  intro vR vI vT statusSet pd d
  refine ⟨?_, ?_, ?_, ?_, ?_, ?_⟩
  · intro esc
    simp [validateDelta, List.mem_filter]
  · intro tc
    simp [validateDelta, List.mem_filter]
  · intro e1 e2 t1 t2
    simp [validateDelta]
  · intro e1 e2 t1 t2
    simp [validateDelta]
  · intro esc
    simp [validateEscalation, List.elem_iff]
  · intro tc
    simp [validateTierChange, or_assoc]

/-- Witness for C7 at concrete records: the failing escalation and tier
change are dropped, the passing ones retained, and needs-review is
untouched. -/
theorem side_channels_filtered_silently_witness :
    (goodEsc ∈ ((validateDelta vROk vIOk vTOk ["signed"] samplePD sideDelta).1).escalations ↔
      goodEsc ∈ sideDelta.escalations ∧
        validateEscalation ["signed"] goodEsc samplePD = true) ∧
    (badTC ∈ ((validateDelta vROk vIOk vTOk ["signed"] samplePD sideDelta).1).tierChanges ↔
      badTC ∈ sideDelta.tierChanges ∧ validateTierChange badTC samplePD = true) := by
  have h := side_channels_filtered_silently vROk vIOk vTOk ["signed"] samplePD sideDelta
  exact ⟨h.1 goodEsc, h.2.1 badTC⟩

-- ── Lemmas about the merge engine ─────────────────────────────────────────

theorem lookupKey_cons {β : Type} (p : String × β) (ps : List (String × β))
    (k' : String) :
    lookupKey (p :: ps) k' =
      if (p.1 == k') = true then some p.2 else lookupKey ps k' := by
  by_cases h : (p.1 == k') = true
  · simp [lookupKey, List.find?, h]
  · simp [lookupKey, List.find?, h]

theorem lookupKey_setKey {β : Type} (k : String) (v : β) :
    ∀ (l : List (String × β)) (k' : String),
      lookupKey (setKey l k v) k' = if k' = k then some v else lookupKey l k' := by
  intro l
  induction l with
  | nil =>
    intro k'
    by_cases h : k' = k
    · subst h
      simp [setKey, lookupKey_cons, lookupKey]
    · have hb : (k == k') = false :=
        beq_eq_false_iff_ne.mpr (fun hh => h hh.symm)
      simp [setKey, lookupKey_cons, lookupKey, hb, h]
  | cons p ps ih =>
    intro k'
    by_cases hpk : (p.1 == k) = true
    · have hpkEq : p.1 = k := eq_of_beq hpk
      simp only [setKey, if_pos hpk]
      by_cases h : k' = k
      · subst h
        simp [lookupKey_cons]
      · have hb : (k == k') = false :=
          beq_eq_false_iff_ne.mpr (fun hh => h hh.symm)
        have hb2 : (p.1 == k') = false :=
          beq_eq_false_iff_ne.mpr (fun hh => h (hh.symm.trans hpkEq))
        rw [lookupKey_cons, lookupKey_cons]
        simp [hb, hb2, h]
    · simp only [setKey, if_neg hpk]
      rw [lookupKey_cons, lookupKey_cons]
      by_cases hp' : (p.1 == k') = true
      · have h : ¬ k' = k := by
          intro hh
          subst hh
          exact hpk hp'
        simp [hp', h]
      · simp only [hp', if_false]
        exact ih k'

theorem lookupKey_objAssign :
    ∀ (u o : IntelEntry) (k : String),
      lookupField (objAssign o u) k =
        match lastVal u k with
        | some v => some v
        | none => lookupField o k := by
  intro u
  induction u with
  | nil => intro o k; simp [objAssign, lastVal, lookupField]
  | cons p ps ih =>
    intro o k
    have hstep : objAssign o (p :: ps) = objAssign (setKey o p.1 p.2) ps := rfl
    rw [hstep, ih]
    cases hlv : lastVal ps k with
    | some v => simp [lastVal, hlv]
    | none =>
      simp only [lastVal, hlv, lookupField, setField]
      rw [lookupKey_setKey]
      by_cases h : (p.1 == k) = true
      · have hk : k = p.1 := (eq_of_beq h).symm
        rw [if_pos h, if_pos hk]
      · have hk : ¬ k = p.1 := fun hh => h (by simp [hh])
        rw [if_neg h, if_neg hk]

theorem find_updateFirstPlayer (pid : Int) (f : Player → Player)
    (hf : ∀ p, (f p).id = p.id) :
    ∀ (l : List Player) (player : Player),
      l.find? (fun p => p.id == pid) = some player →
      (updateFirstPlayer l pid f).find? (fun p => p.id == pid) = some (f player) := by
  intro l
  induction l with
  | nil => intro player h; simp [List.find?] at h
  | cons p ps ih =>
    intro player h
    by_cases hid : (p.id == pid) = true
    · simp only [List.find?, hid, cond_true, Option.some.injEq] at h
      subst h
      simp only [updateFirstPlayer, if_pos hid]
      have hfid : ((f p).id == pid) = true := by rw [hf p]; exact hid
      simp [List.find?, hfid]
    · have hidb : (p.id == pid) = false := by
        cases hb : (p.id == pid) with
        | true => exact absurd hb hid
        | false => rfl
      simp only [List.find?, hidb, cond_false] at h
      simp only [updateFirstPlayer, if_neg hid]
      simp only [List.find?, hidb, cond_false]
      exact ih player h

theorem applyIntelStep_fst (item : CandidateItem) (st : SweepState) :
    (applyIntelStep item st).1 = st.1 := by
  cases h : item.intelUpdates <;> simp [applyIntelStep, h]

theorem applyIntelStep_flag_true (item : CandidateItem) (pd : PlayersData)
    (idata : IntelData) :
    (applyIntelStep item (pd, idata, true)).2.2 = true := by
  cases h : item.intelUpdates <;> simp [applyIntelStep, h]

-- ── C1: duplicate rumours are skipped, fresh ones prepended ───────────────

/-- Claim C1 — In the merge loop body, for an item carrying a rumour whose
player id resolves: a rumour the duplicate check flags against the player's
current history leaves the state (stores and `changed` flag) exactly as it
was, while a non-duplicate rumour is prepended to the front of that player's
history and the `changed` flag is set. -/
theorem merge_rumour_dup_skip_or_prepend :
    ∀ (isDup : Rumour → List Rumour → Bool) (pd : PlayersData)
      (idata : IntelData) (changed : Bool) (item : CandidateItem) (r : Rumour)
      (player : Player),
      item.rumor = some r →
      findPlayer pd item.playerId = some player →
      (isDup r player.rumors = true →
        applyItem isDup (pd, idata, changed) item = (pd, idata, changed)) ∧
      (isDup r player.rumors = false →
        (applyItem isDup (pd, idata, changed) item).2.2 = true ∧
        findPlayer (applyItem isDup (pd, idata, changed) item).1 item.playerId =
          some { player with rumors := r :: player.rumors }) := by
  intro isDup pd idata changed item r player hr hfind
  constructor
  · intro hdup
    simp [applyItem, hfind, hr, hdup]
  · intro hfresh
    have hbody : applyItem isDup (pd, idata, changed) item =
        applyIntelStep item ({ pd with players := updateFirstPlayer pd.players item.playerId (fun p => { p with rumors := r :: p.rumors }) }, idata, true) := by
      simp [applyItem, hfind, hr, hfresh]
    rw [hbody]
    constructor
    · exact applyIntelStep_flag_true item _ idata
    · rw [applyIntelStep_fst]
      simp only [findPlayer]
      exact find_updateFirstPlayer item.playerId
        (fun p => { p with rumors := r :: p.rumors }) (fun p => rfl)
        pd.players player hfind

/-- Witness for C1: the concrete duplicate item leaves the state untouched. -/
theorem merge_rumour_dup_skip_witness :
    applyItem memberDup (samplePD, [], false) dupRumourItem = (samplePD, [], false) :=
  (merge_rumour_dup_skip_or_prepend memberDup samplePD [] false dupRumourItem
    sampleRumour samplePlayer rfl (by decide)).1 (by decide)

-- ── C4: intel updates are skipped for duplicate rumours ───────────────────

/-- Claim C4, amended — For an item whose `intelUpdates` is a non-null object
and whose player id resolves: when the item carries no rumour, or a rumour
not flagged as duplicate, the player's intel entry is created if absent and
the supplied fields are shallow-merged (overwriting supplied keys, leaving
all other keys and all other players' entries intact); but when the item's
rumour is skipped as a duplicate, the `continue` also skips the intel
updates, leaving the intel store untouched. -/
theorem intel_merge_unless_dup :
    ∀ (isDup : Rumour → List Rumour → Bool) (pd : PlayersData)
      (idata : IntelData) (changed : Bool) (item : CandidateItem)
      (u : IntelEntry) (player : Player),
      item.intelUpdates = some u →
      findPlayer pd item.playerId = some player →
      (item.rumor = none →
        applyItem isDup (pd, idata, changed) item =
          (pd, applyIntelUpdates idata item.playerId u, true)) ∧
      (∀ r, item.rumor = some r → isDup r player.rumors = false →
        (applyItem isDup (pd, idata, changed) item).2.1 =
          applyIntelUpdates idata item.playerId u ∧
        (applyItem isDup (pd, idata, changed) item).2.2 = true) ∧
      (∀ r, item.rumor = some r → isDup r player.rumors = true →
        applyItem isDup (pd, idata, changed) item = (pd, idata, changed)) ∧
      (lookupIntel (applyIntelUpdates idata item.playerId u)
          (intelKey item.playerId) =
        some (objAssign (intelEntryFor idata item.playerId) u)) ∧
      (∀ k', k' ≠ intelKey item.playerId →
        lookupIntel (applyIntelUpdates idata item.playerId u) k' =
          lookupIntel idata k') ∧
      (∀ k, lookupField (objAssign (intelEntryFor idata item.playerId) u) k =
        match lastVal u k with
        | some v => some v
        | none => lookupField (intelEntryFor idata item.playerId) k) := by
  intro isDup pd idata changed item u player hu hfind
  refine ⟨?_, ?_, ?_, ?_, ?_, ?_⟩
  · intro hnone
    simp [applyItem, hfind, hnone, applyIntelStep, hu]
  · intro r hr hfresh
    constructor
    · simp [applyItem, hfind, hr, hfresh, applyIntelStep, hu]
    · simp [applyItem, hfind, hr, hfresh, applyIntelStep, hu]
  · intro r hr hdup
    simp [applyItem, hfind, hr, hdup]
  · simp only [applyIntelUpdates, lookupIntel, setIntel]
    rw [lookupKey_setKey]
    rw [if_pos rfl]
  · intro k' hk'
    simp only [applyIntelUpdates, lookupIntel, setIntel]
    rw [lookupKey_setKey, if_neg hk']
  · intro k
    exact lookupKey_objAssign u (intelEntryFor idata item.playerId) k

/-- Counterexample for C4 as stated: an accepted-shaped item with non-null
`intelUpdates` whose rumour is flagged duplicate leaves the intel store
untouched — its entry is not even created, so no shallow merge happens. -/
theorem intel_merge_claim_counterexample :
    dupIntelItem.intelUpdates = some [("contract", "2027")] ∧
    memberDup sampleRumour samplePlayer.rumors = true ∧
    applyItem memberDup (samplePD, [], false) dupIntelItem = (samplePD, [], false) ∧
    lookupIntel (applyItem memberDup (samplePD, [], false) dupIntelItem).2.1
      (intelKey dupIntelItem.playerId) = none := by
  decide

/-- Witness for the amended C4 at concrete inputs. -/
theorem intel_merge_unless_dup_witness :
    applyItem memberDup (samplePD, [], false) dupIntelItem = (samplePD, [], false) ∧
    lookupIntel (applyIntelUpdates [] dupIntelItem.playerId [("contract", "2027")])
        (intelKey dupIntelItem.playerId) =
      some (objAssign (intelEntryFor [] dupIntelItem.playerId) [("contract", "2027")]) := by
  have h := intel_merge_unless_dup memberDup samplePD [] false dupIntelItem
    [("contract", "2027")] samplePlayer rfl (by decide)
  exact ⟨h.2.2.1 sampleRumour rfl (by decide), h.2.2.2.1⟩

-- ── C6: the retry policy ──────────────────────────────────────────────────

/-- Claim C6, amended — `withRetry` retries only failures identified as rate
limits (status 429 or message containing "rate_limit"), making up to 3 total
attempts with waits of 60s and then 120s between consecutive attempts (the
180s value of the backoff formula is never reached, because the third
attempt is the last).  A success returns immediately; a non-rate-limit
failure propagates at once; exhaustion propagates the last error.  A Phase 2
failure aborts the run with exit code 1 before any store mutation, while
Phase 1 failures never decide the run's outcome (the sweep continues with a
failure marker in the findings file). -/
theorem retry_policy :
    ∀ {α : Type} (fn : Nat → Except ApiError α),
      (∀ w ∈ (withRetry fn).1, w = 60 ∨ w = 120) ∧
      (∀ a, fn 1 = .ok a → withRetry fn = ([], some (.ok a))) ∧
      (∀ e, fn 1 = .error e → isRateLimitErr e = false →
        withRetry fn = ([], some (.error e))) ∧
      (∀ e1 e2 e3, fn 1 = .error e1 → fn 2 = .error e2 → fn 3 = .error e3 →
        isRateLimitErr e1 = true → isRateLimitErr e2 = true →
        withRetry fn = ([60, 120], some (.error e3))) ∧
      (∀ (vR : Rumour → ValidationResult)
         (vI : CandidateItem → PlayersData → ValidationResult)
         (vT : Rumour → TierResult) (statusSet : List String)
         (isDup : Rumour → List Rumour → Bool)
         (decode : String → Option Delta) (ts today : String)
         (dryRun buildOk : Bool) (pd : PlayersData) (idata : IntelData)
         (phase1 : List (Except ApiError String)) (e : ApiError),
        sweepRun vR vI vT statusSet isDup decode ts today dryRun buildOk pd
            idata phase1 (.error e) =
          { events := [.write .rawFindings (.raw (buildFindings phase1))]
            exitCode := 1, finalPlayers := pd, finalIntel := idata }) ∧
      (∀ (vR : Rumour → ValidationResult)
         (vI : CandidateItem → PlayersData → ValidationResult)
         (vT : Rumour → TierResult) (statusSet : List String)
         (isDup : Rumour → List Rumour → Bool)
         (decode : String → Option Delta) (ts today : String)
         (dryRun buildOk : Bool) (pd : PlayersData) (idata : IntelData)
         (phase1 phase1' : List (Except ApiError String))
         (p2 : Except ApiError String),
        (sweepRun vR vI vT statusSet isDup decode ts today dryRun buildOk pd
            idata phase1 p2).exitCode =
          (sweepRun vR vI vT statusSet isDup decode ts today dryRun buildOk pd
            idata phase1' p2).exitCode ∧
        (sweepRun vR vI vT statusSet isDup decode ts today dryRun buildOk pd
            idata phase1 p2).finalPlayers =
          (sweepRun vR vI vT statusSet isDup decode ts today dryRun buildOk pd
            idata phase1' p2).finalPlayers ∧
        (sweepRun vR vI vT statusSet isDup decode ts today dryRun buildOk pd
            idata phase1 p2).finalIntel =
          (sweepRun vR vI vT statusSet isDup decode ts today dryRun buildOk pd
            idata phase1' p2).finalIntel) := by
  intro α fn
  refine ⟨?_, ?_, ?_, ?_, ?_, ?_⟩
  · intro w hw
    cases h1 : fn 1 with
    | ok a1 => simp [withRetry, withRetryGo, h1] at hw
    | error e1 =>
      by_cases hr1 : isRateLimitErr e1 = true
      · cases h2 : fn 2 with
        | ok a2 =>
          simp [withRetry, withRetryGo, h1, h2, hr1] at hw
          exact Or.inl hw
        | error e2 =>
          by_cases hr2 : isRateLimitErr e2 = true
          · cases h3 : fn 3 with
            | ok a3 =>
              simp [withRetry, withRetryGo, h1, h2, h3, hr1, hr2] at hw
              rcases hw with hw | hw
              · exact Or.inl hw
              · exact Or.inr hw
            | error e3 =>
              simp [withRetry, withRetryGo, h1, h2, h3, hr1, hr2] at hw
              rcases hw with hw | hw
              · exact Or.inl hw
              · exact Or.inr hw
          · simp [withRetry, withRetryGo, h1, h2, hr1, hr2] at hw
            exact Or.inl hw
      · simp [withRetry, withRetryGo, h1, hr1] at hw
  · intro a h1
    simp [withRetry, withRetryGo, h1]
  · intro e h1 hr1
    simp [withRetry, withRetryGo, h1, hr1]
  · intro e1 e2 e3 h1 h2 h3 hr1 hr2
    simp [withRetry, withRetryGo, h1, h2, h3, hr1, hr2]
  · intro vR vI vT statusSet isDup decode ts today dryRun buildOk pd idata phase1 e
    simp [sweepRun]
  · intro vR vI vT statusSet isDup decode ts today dryRun buildOk pd idata phase1 phase1' p2
    cases p2 with
    | error e => simp [sweepRun]
    | ok jsonText => simp [sweepRun]

/-- Counterexample for C6 as stated: when every attempt is rate-limited, the
retries are exhausted after waits of 60s and 120s only — the claimed 180s
wait never occurs. -/
theorem retry_policy_claim_counterexample :
    withRetry fnAllRateLimited = ([60, 120], some (.error rlErr)) ∧
    ¬ (180 ∈ (withRetry fnAllRateLimited).1) :=
  ⟨rfl, by decide⟩

/-- Witness for the amended C6: a non-rate-limit failure propagates at once
with no waits. -/
theorem retry_policy_witness :
    withRetry fnFatal = ([], some (.error fatalErr)) := by
  have h := retry_policy fnFatal
  exact h.2.2.1 fatalErr rfl (by decide)

-- ── Lemmas: the merge loops never touch the run metadata ──────────────────

theorem foldl_fst_meta {β : Type} (f : SweepState → β → SweepState)
    (hf : ∀ st x, ((f st x).1).meta = (st.1).meta) :
    ∀ (l : List β) (st : SweepState), ((l.foldl f st).1).meta = (st.1).meta := by
  intro l
  induction l with
  | nil => intro st; rfl
  | cons x xs ih =>
    intro st
    rw [List.foldl_cons, ih (f st x), hf st x]

theorem applyItem_meta (isDup : Rumour → List Rumour → Bool) :
    ∀ (st : SweepState) (item : CandidateItem),
      ((applyItem isDup st item).1).meta = (st.1).meta := by
  intro st item
  cases hfp : findPlayer st.1 item.playerId with
  | none => simp [applyItem, hfp]
  | some player =>
    cases hr : item.rumor with
    | none => simp [applyItem, hfp, hr, applyIntelStep_fst]
    | some r =>
      by_cases hd : isDup r player.rumors = true
      · simp [applyItem, hfp, hr, hd]
      · have hd' : isDup r player.rumors = false := by
          cases hb : isDup r player.rumors with
          | true => exact absurd hb hd
          | false => rfl
        simp [applyItem, hfp, hr, hd', applyIntelStep_fst]

theorem applyEsc_meta :
    ∀ (st : SweepState) (esc : Escalation),
      ((applyEsc st esc).1).meta = (st.1).meta := by
  intro st esc
  cases hfp : findPlayer st.1 esc.playerId with
  | none => simp [applyEsc, hfp]
  | some player =>
    by_cases hf : (esc.field == "status") = true
    · simp [applyEsc, hfp, hf]
    · simp [applyEsc, hfp, hf]

theorem applyTC_meta :
    ∀ (st : SweepState) (tc : TierChange),
      ((applyTC st tc).1).meta = (st.1).meta := by
  intro st tc
  cases hfp : findPlayer st.1 tc.playerId with
  | none => simp [applyTC, hfp]
  | some player => simp [applyTC, hfp]

theorem applyDelta_meta (isDup : Rumour → List Rumour → Bool)
    (pd : PlayersData) (idata : IntelData) (delta : Delta) :
    ((applyDelta isDup pd idata delta).1).meta = pd.meta := by
  simp only [applyDelta]
  rw [foldl_fst_meta applyTC applyTC_meta,
      foldl_fst_meta applyEsc applyEsc_meta,
      foldl_fst_meta (applyItem isDup) (applyItem_meta isDup)]

-- ── C10: no change or dry run leaves the stores as loaded ─────────────────

/-- Claim C10 — When the merge reports no change, or `--dry-run` is set, the
run exits with code 0 having written only the delta report (plus the Phase 1
findings file): no write to `players.json` or `intel.json`, no backup copy,
and the run metadata (`lastSweep`, `sweepNumber`) is left untouched. -/
theorem quiet_or_dry_run_no_store_writes :
    ∀ (vR : Rumour → ValidationResult)
      (vI : CandidateItem → PlayersData → ValidationResult)
      (vT : Rumour → TierResult) (statusSet : List String)
      (isDup : Rumour → List Rumour → Bool) (decode : String → Option Delta)
      (ts today : String) (dryRun buildOk : Bool) (pd : PlayersData)
      (idata : IntelData) (phase1 : List (Except ApiError String))
      (jsonText span : String) (delta0 : Delta),
      extractJsonSpan jsonText = some span →
      decode span = some delta0 →
      ((applyDelta isDup pd idata
          ((validateDelta vR vI vT statusSet pd delta0).1)).2.2 = false ∨
        dryRun = true) →
      sweepRun vR vI vT statusSet isDup decode ts today dryRun buildOk pd
          idata phase1 (.ok jsonText) =
        { events := [.write .rawFindings (.raw (buildFindings phase1)),
                     .write (.deltaReport ts) .deltaReport]
          exitCode := 0
          finalPlayers := (applyDelta isDup pd idata
            ((validateDelta vR vI vT statusSet pd delta0).1)).1
          finalIntel := (applyDelta isDup pd idata
            ((validateDelta vR vI vT statusSet pd delta0).1)).2.1 } ∧
      ((applyDelta isDup pd idata
          ((validateDelta vR vI vT statusSet pd delta0).1)).1).meta = pd.meta := by
  intro vR vI vT statusSet isDup decode ts today dryRun buildOk pd idata
    phase1 jsonText span delta0 hspan hdec hquiet
  refine ⟨?_, applyDelta_meta isDup pd idata _⟩
  rcases hquiet with hch | hdry
  · simp [sweepRun, sweepFromJson, hspan, hdec, hch]
  · subst hdry
    by_cases hch : (applyDelta isDup pd idata
        ((validateDelta vR vI vT statusSet pd delta0).1)).2.2 = false
    · simp [sweepRun, sweepFromJson, hspan, hdec, hch]
    · simp [sweepRun, sweepFromJson, hspan, hdec, hch]

/-- Witness for C10: the concrete no-change run writes only the findings
file and the delta report, exits 0, and keeps the metadata. -/
theorem quiet_or_dry_run_no_store_writes_witness :
    quietRun =
      { events := [.write .rawFindings (.raw (buildFindings [])),
                   .write (.deltaReport "TS") .deltaReport]
        exitCode := 0
        finalPlayers := (applyDelta alwaysFresh samplePD []
          ((validateDelta vROk vIOk vTOk [] samplePD emptyDelta).1)).1
        finalIntel := (applyDelta alwaysFresh samplePD []
          ((validateDelta vROk vIOk vTOk [] samplePD emptyDelta).1)).2.1 } ∧
    ((applyDelta alwaysFresh samplePD []
        ((validateDelta vROk vIOk vTOk [] samplePD emptyDelta).1)).1).meta =
      samplePD.meta :=
  quiet_or_dry_run_no_store_writes vROk vIOk vTOk [] alwaysFresh
    (fun _ => some emptyDelta) "TS" "Feb 9, 2026" false true samplePD [] []
    "x{y}z" "{y}" emptyDelta (by decide) rfl (Or.inl (by decide))

-- ── C9: backups are written before any store overwrite ────────────────────

/-- Claim C9 — In every run, any write to `players.json` (resp. `intel.json`)
is strictly preceded in the effect trace by the snapshot copy of that store
to `players_pre_sweep_<timestamp>.json` (resp.
`intel_pre_sweep_<timestamp>.json`); the backup names are exactly the ones
the script builds. -/
theorem backups_precede_store_writes :
    ∀ (vR : Rumour → ValidationResult)
      (vI : CandidateItem → PlayersData → ValidationResult)
      (vT : Rumour → TierResult) (statusSet : List String)
      (isDup : Rumour → List Rumour → Bool) (decode : String → Option Delta)
      (ts today : String) (dryRun buildOk : Bool) (pd : PlayersData)
      (idata : IntelData) (phase1 : List (Except ApiError String))
      (phase2 : Except ApiError String) (evs : List Event),
      evs = (sweepRun vR vI vT statusSet isDup decode ts today dryRun buildOk
        pd idata phase1 phase2).events →
      (∀ j c, evs.get? j = some (.write .playersJson c) →
        ∃ i, i < j ∧
          evs.get? i = some (.copyFile .playersJson (.playersBackup ts))) ∧
      (∀ j c, evs.get? j = some (.write .intelJson c) →
        ∃ i, i < j ∧
          evs.get? i = some (.copyFile .intelJson (.intelBackup ts))) ∧
      pathString (.playersBackup ts) =
        "sweeps/backups/players_pre_sweep_" ++ ts ++ ".json" ∧
      pathString (.intelBackup ts) =
        "sweeps/backups/intel_pre_sweep_" ++ ts ++ ".json" := by
  intro vR vI vT statusSet isDup decode ts today dryRun buildOk pd idata
    phase1 phase2 evs hevs
  subst hevs
  cases phase2 with
  | error e =>
    refine ⟨?_, ?_, rfl, rfl⟩
    · intro j c h
      simp only [sweepRun] at h
      rcases j with _ | j <;> simp [List.get?] at h
    · intro j c h
      simp only [sweepRun] at h
      rcases j with _ | j <;> simp [List.get?] at h
  | ok jsonText =>
    cases hx : extractJsonSpan jsonText with
    | none =>
      refine ⟨?_, ?_, rfl, rfl⟩
      · intro j c h
        simp only [sweepRun, sweepFromJson, hx] at h
        rcases j with _ | _ | j <;> simp [List.get?] at h
      · intro j c h
        simp only [sweepRun, sweepFromJson, hx] at h
        rcases j with _ | _ | j <;> simp [List.get?] at h
    | some span =>
      cases hd : decode span with
      | none =>
        refine ⟨?_, ?_, rfl, rfl⟩
        · intro j c h
          simp only [sweepRun, sweepFromJson, hx, hd] at h
          rcases j with _ | _ | j <;> simp [List.get?] at h
        · intro j c h
          simp only [sweepRun, sweepFromJson, hx, hd] at h
          rcases j with _ | _ | j <;> simp [List.get?] at h
      | some delta0 =>
        by_cases hch : (applyDelta isDup pd idata
            ((validateDelta vR vI vT statusSet pd delta0).1)).2.2 = false
        · refine ⟨?_, ?_, rfl, rfl⟩
          · intro j c h
            simp [sweepRun, sweepFromJson, hx, hd, hch] at h
            rcases j with _ | _ | j <;> simp [List.get?] at h
          · intro j c h
            simp [sweepRun, sweepFromJson, hx, hd, hch] at h
            rcases j with _ | _ | j <;> simp [List.get?] at h
        · cases dryRun with
          | true =>
            refine ⟨?_, ?_, rfl, rfl⟩
            · intro j c h
              simp [sweepRun, sweepFromJson, hx, hd, hch] at h
              rcases j with _ | _ | j <;> simp [List.get?] at h
            · intro j c h
              simp [sweepRun, sweepFromJson, hx, hd, hch] at h
              rcases j with _ | _ | j <;> simp [List.get?] at h
          | false =>
            refine ⟨?_, ?_, rfl, rfl⟩
            · intro j c h
              simp [sweepRun, sweepFromJson, hx, hd, hch] at h ⊢
              rcases j with _ | _ | _ | _ | _ | _ | _ | j
              · simp [List.get?] at h
              · simp [List.get?] at h
              · simp [List.get?] at h
              · simp [List.get?] at h
              · exact ⟨2, by omega, by simp [List.get?]⟩
              · simp [List.get?] at h
              · simp [List.get?] at h
              · simp [List.get?] at h
            · intro j c h
              simp [sweepRun, sweepFromJson, hx, hd, hch] at h ⊢
              rcases j with _ | _ | _ | _ | _ | _ | _ | j
              · simp [List.get?] at h
              · simp [List.get?] at h
              · simp [List.get?] at h
              · simp [List.get?] at h
              · simp [List.get?] at h
              · exact ⟨3, by omega, by simp [List.get?]⟩
              · simp [List.get?] at h
              · simp [List.get?] at h

/-- Witness for C9: in the concrete persisting run, the `players.json`
overwrite sits at index 4 of the trace and its backup copy strictly before
it. -/
theorem backups_precede_store_writes_witness :
    ∃ i, i < 4 ∧ persistRun.events.get? i =
      some (.copyFile .playersJson (.playersBackup "TS")) := by
  have h := backups_precede_store_writes vROk vIOk vTOk [] alwaysFresh
    (fun _ => some freshDelta) "TS" "Feb 9, 2026" false true samplePD [] []
    (.ok "x{y}z") persistRun.events rfl
  exact h.1 4 (.playersStore persistRun.finalPlayers) (by decide)

end Sweep
